import Mathlib

/-!
Verification of the Blendora recipe catalog (src/app.py) against its
specification. The SQLite tables are embedded as lists of rows, the SQL
queries as list operations (joins as flatMaps, ORDER BY as a stable merge
sort), and the Flask handlers as pure functions of the database value and
the parsed query parameters.
-/

namespace Blendora

open scoped List

/-- Row of the `recipes` table (id, name, description, instructions).
The instructions are stored JSON-encoded; the embedding keeps the decoded
list, since decoding is done by the JSON library and every code path only
round-trips it. -/
structure RecipeRow where
  id : Nat
  name : String
  description : String
  instructions : List String
deriving Repr, DecidableEq

/-- Row of the `ingredients` table. -/
structure IngredientRow where
  id : Nat
  name : String
deriving Repr, DecidableEq

/-- Row of the `recipe_ingredients` link table. -/
structure RecipeIngredientRow where
  recipe_id : Nat
  ingredient_id : Nat
  qty_1 : String
  qty_2 : String
  unit : Option String
deriving Repr, DecidableEq

/-- Row of the `benefits` table. -/
structure BenefitRow where
  id : Nat
  name : String
  description : String
deriving Repr, DecidableEq

/-- Row of the `recipe_benefits` link table. -/
structure RecipeBenefitRow where
  recipe_id : Nat
  benefit_id : Nat
  rating : Nat
deriving Repr, DecidableEq

/-- A database value: the five tables of `init_db`. -/
structure DB where
  recipes : List RecipeRow
  ingredients : List IngredientRow
  recipe_ingredients : List RecipeIngredientRow
  benefits : List BenefitRow
  recipe_benefits : List RecipeBenefitRow
deriving Repr, DecidableEq

/-- `fetch_recipes`: `SELECT id, name, description, instructions_json FROM
recipes ORDER BY name`. -/
def fetch_recipes (db : DB) : List RecipeRow :=
  db.recipes.mergeSort (fun a b => decide (a.name ≤ b.name))

/-- One row of the ingredient listing returned by
`fetch_recipe_ingredients` (name, qty, unit). -/
structure IngredientView where
  name : String
  qty : String
  unit : Option String
deriving Repr, DecidableEq

/-- `fetch_recipe_ingredients`: joins `recipe_ingredients` with
`ingredients`, keeps the rows of the given recipe, orders by ingredient
name and selects `qty_2` when `servings = 2`, else `qty_1`. -/
def fetch_recipe_ingredients (db : DB) (recipe_id : Nat) (servings : Nat) :
    List IngredientView :=
  let joined := db.recipe_ingredients.flatMap (fun ri =>
    (db.ingredients.filter (fun i => i.id == ri.ingredient_id)).map (fun i => (i, ri)))
  let rows := (joined.filter (fun p => p.2.recipe_id == recipe_id)).mergeSort
    (fun a b => decide (a.1.name ≤ b.1.name))
  rows.map (fun p =>
    { name := p.1.name
      qty := if servings = 2 then p.2.qty_2 else p.2.qty_1
      unit := p.2.unit })

/-- One row of the benefit listing returned by `fetch_recipe_benefits`. -/
structure BenefitView where
  name : String
  description : String
  rating : Nat
deriving Repr, DecidableEq

/-- `fetch_recipe_benefits`: joins `recipe_benefits` with `benefits`,
keeps the rows of the given recipe and orders by benefit name. -/
def fetch_recipe_benefits (db : DB) (recipe_id : Nat) : List BenefitView :=
  let joined := db.recipe_benefits.flatMap (fun rb =>
    (db.benefits.filter (fun b => b.id == rb.benefit_id)).map (fun b => (b, rb)))
  let rows := (joined.filter (fun p => p.2.recipe_id == recipe_id)).mergeSort
    (fun a b => decide (a.1.name ≤ b.1.name))
  rows.map (fun p => { name := p.1.name, description := p.1.description, rating := p.2.rating })

/-- Python's `str.strip()`: drop leading and trailing whitespace
(structurally, over the character list). -/
def pyStrip (s : String) : String :=
  ⟨((s.data.dropWhile Char.isWhitespace).reverse.dropWhile Char.isWhitespace).reverse⟩

/-- The set comprehensions at the top of `filter_recipes`:
`{name.strip() for name in names if name.strip()}` (kept as a list; only
emptiness and membership are ever used). -/
def stripNonEmpty (names : List String) : List String :=
  (names.map pyStrip).filter (fun s => s != "")

/-- The un-aggregated result of the three-way join in `filter_recipes`:
`SELECT r.id, i.name FROM recipes r JOIN recipe_ingredients ri ON r.id =
ri.recipe_id JOIN ingredients i ON i.id = ri.ingredient_id`. -/
def joinPairs (db : DB) : List (Nat × String) :=
  db.recipes.flatMap (fun r =>
    db.recipe_ingredients.flatMap (fun ri =>
      if ri.recipe_id = r.id then
        (db.ingredients.filter (fun i => i.id == ri.ingredient_id)).map (fun i => (r.id, i.name))
      else []))

/-- The value stored under key `rid` in `recipe_ingredient_map` (the set
of ingredient names of recipe `rid`, kept as a list). -/
def ingredientNames (db : DB) (rid : Nat) : List String :=
  ((joinPairs db).filter (fun p => p.1 == rid)).map Prod.snd

/-- Key sequence of a Python dict built by repeated `setdefault`: first
occurrence order, duplicates dropped. -/
def dedupKeysAux (seen : List Nat) : List Nat → List Nat
  | [] => []
  | k :: ks => if k ∈ seen then dedupKeysAux seen ks else k :: dedupKeysAux (k :: seen) ks

/-- The keys of `recipe_ingredient_map`, in insertion order. -/
def recipeIngredientKeys (db : DB) : List Nat :=
  dedupKeysAux [] ((joinPairs db).map Prod.fst)

/-- `filter_recipes`: strips the three criteria, builds
`recipe_ingredient_map` from the join, and keeps a recipe id unless a
non-empty include set is not a subset of its ingredients, a non-empty
exclude set meets its ingredients, or a non-empty have set fails to cover
its ingredients. -/
def filter_recipes (db : DB)
    (include_ingredients exclude_ingredients have_ingredients : List String) : List Nat :=
  let include_set := stripNonEmpty include_ingredients
  let exclude_set := stripNonEmpty exclude_ingredients
  let have_set := stripNonEmpty have_ingredients
  (recipeIngredientKeys db).filter (fun rid =>
    let names := ingredientNames db rid
    (include_set.isEmpty || include_set.all (fun n => names.contains n)) &&
    (exclude_set.isEmpty || !(exclude_set.any (fun n => names.contains n))) &&
    (have_set.isEmpty || names.all (fun n => have_set.contains n)))

/-- The recipe list computed by the `index` route: all recipes ordered by
name; when any of the three criteria lists is non-empty, restricted to the
ids returned by `filter_recipes`. -/
def indexRecipes (db : DB) (inc exc hav : List String) : List RecipeRow :=
  let recipes := fetch_recipes db
  if inc.isEmpty && exc.isEmpty && hav.isEmpty then recipes
  else
    let allowed := filter_recipes db inc exc hav
    recipes.filter (fun r => allowed.contains r.id)

/-- One entry of `recipe_cards` in the `index` route. -/
structure Card where
  recipe : RecipeRow
  ingredients : List IngredientView
  benefits : List BenefitView
deriving Repr, DecidableEq

/-- The `index` route: the filtered recipe list, each recipe paired with
its ingredient rows (at the requested servings) and benefit rows. -/
def index (db : DB) (servings : Nat) (inc exc hav : List String) : List Card :=
  (indexRecipes db inc exc hav).map (fun r =>
    { recipe := r
      ingredients := fetch_recipe_ingredients db r.id servings
      benefits := fetch_recipe_benefits db r.id })

/-- Outcome of the `recipe_detail` route: either the rendered recipe page
or a redirect to the index listing. -/
inductive DetailResponse where
  | redirectIndex : DetailResponse
  | page : RecipeRow → List IngredientView → List BenefitView → Nat → DetailResponse
deriving Repr, DecidableEq

/-- The `recipe_detail` route: looks the id up in `recipes`; on a miss it
redirects to the index, otherwise it renders the recipe page. -/
def recipe_detail (db : DB) (recipe_id : Nat) (servings : Nat) : DetailResponse :=
  match db.recipes.find? (fun r => r.id == recipe_id) with
  | none => DetailResponse.redirectIndex
  | some row =>
    DetailResponse.page row (fetch_recipe_ingredients db recipe_id servings)
      (fetch_recipe_benefits db recipe_id) servings

/-! ## The Filter & Rank Engine of the specification

The repository's full engine (favorite flags, `favoritesOnly`, benefit
prioritization, the final favorite sort) is not present under src/:
src/app.py carries no favorite flag and no prioritize parameter, while
src/scripts/update_db.py calls `app.ensure_schema` / `app.seed_from_json`,
which do not exist in src/app.py — the src snapshot is missing part of the
application. The engine is therefore modelled from the spec below. -/

/-- Modelled from the spec: a catalog-snapshot entry — a recipe id, name
and favorite flag together with the recipe's ingredient-name set and its
benefit-name-to-rating mapping (src/app.py has no favorite flag or benefit
prioritization; §3 and §6 of the spec describe this snapshot). -/
structure SnapRecipe where
  rid : Nat
  name : String
  favorite : Bool
  ingredients : List String
  ratings : List (String × Nat)
deriving Repr, DecidableEq

/-- Modelled from the spec: the criteria record of §4.1. -/
structure Criteria where
  includeNames : List String
  excludeNames : List String
  haveNames : List String
  favoritesOnly : Bool
  prioritizeBenefitNames : List String
deriving Repr, DecidableEq

/-- Modelled from the spec: a recipe's rating for a benefit name, 0 when
the recipe is not rated for it (§3: absent benefit ⇒ implicit score
contribution of 0). -/
def ratingFor (r : SnapRecipe) (b : String) : Nat :=
  match r.ratings.find? (fun p => p.1 == b) with
  | some p => p.2
  | none => 0

/-- Modelled from the spec: `score(recipe) = Σ over name in
prioritizeBenefitNames of (recipe's rating for that benefit, or 0)`. -/
def score (pri : List String) (r : SnapRecipe) : Nat :=
  (pri.map (fun b => ratingFor r b)).sum

/-- Modelled from the spec: the conjunction of the three per-filter
conditions of §4.1 step 2. -/
def passesFilters (inc exc hav : List String) (r : SnapRecipe) : Bool :=
  (inc.isEmpty || inc.all (fun n => r.ingredients.contains n)) &&
  (exc.isEmpty || !(exc.any (fun n => r.ingredients.contains n))) &&
  (hav.isEmpty || r.ingredients.all (fun n => hav.contains n))

/-- Modelled from the spec: the filtering stage of §4.1 — `favoritesOnly`
keeps exactly the favorites and ignores the other filters; else the three
ingredient filters apply when any is non-empty; else the full catalog. -/
def workingSet (snap : List SnapRecipe) (c : Criteria) : List SnapRecipe :=
  let inc := stripNonEmpty c.includeNames
  let exc := stripNonEmpty c.excludeNames
  let hav := stripNonEmpty c.haveNames
  if c.favoritesOnly then snap.filter (fun r => r.favorite)
  else if inc.isEmpty && exc.isEmpty && hav.isEmpty then snap
  else snap.filter (fun r => passesFilters inc exc hav r)

/-- Modelled from the spec: ranking step 1 of §4.1 — when
`prioritizeBenefitNames` is non-empty, stable-sort the working set
descending by score. -/
def rankedStage (snap : List SnapRecipe) (c : Criteria) : List SnapRecipe :=
  let pri := stripNonEmpty c.prioritizeBenefitNames
  if pri.isEmpty then workingSet snap c
  else (workingSet snap c).mergeSort (fun a b => decide (score pri b ≤ score pri a))

/-- Modelled from the spec: `selectAndRank` — ranking step 2 of §4.1
always finishes with a stable sort descending by the favorite flag, whose
key dominates the priority-score order. -/
def selectAndRank (snap : List SnapRecipe) (c : Criteria) : List SnapRecipe :=
  (rankedStage snap c).mergeSort (fun a b => !b.favorite || a.favorite)

/-! ## General lemmas -/

theorem mem_dedupKeysAux {a : Nat} {l seen : List Nat} :
    a ∈ dedupKeysAux seen l ↔ a ∈ l ∧ a ∉ seen := by
  induction l generalizing seen with
  | nil => simp [dedupKeysAux]
  | cons k ks ih =>
    by_cases h : k ∈ seen
    · rw [dedupKeysAux, if_pos h, ih]
      constructor
      · rintro ⟨hks, hs⟩
        exact ⟨List.mem_cons_of_mem _ hks, hs⟩
      · rintro ⟨hk, hs⟩
        rcases List.mem_cons.mp hk with rfl | hks
        · exact absurd h hs
        · exact ⟨hks, hs⟩
    · rw [dedupKeysAux, if_neg h]
      constructor
      · intro hmem
        rcases List.mem_cons.mp hmem with rfl | hrest
        · exact ⟨List.mem_cons_self _ _, h⟩
        · rcases ih.mp hrest with ⟨hks, hs⟩
          exact ⟨List.mem_cons_of_mem _ hks, fun hc => hs (List.mem_cons_of_mem _ hc)⟩
      · rintro ⟨hk, hs⟩
        rcases List.mem_cons.mp hk with rfl | hks
        · exact List.mem_cons_self _ _
        · rcases eq_or_ne a k with rfl | hne
          · exact List.mem_cons_self _ _
          · refine List.mem_cons_of_mem _ (ih.mpr ⟨hks, fun hc => ?_⟩)
            rcases List.mem_cons.mp hc with h1 | h2
            · exact hne h1
            · exact hs h2

theorem mem_recipeIngredientKeys {db : DB} {rid : Nat} :
    rid ∈ recipeIngredientKeys db ↔ rid ∈ (joinPairs db).map Prod.fst := by
  rw [recipeIngredientKeys, mem_dedupKeysAux]
  simp

theorem names_ne_nil_iff {db : DB} {rid : Nat} :
    ingredientNames db rid ≠ [] ↔ rid ∈ (joinPairs db).map Prod.fst := by
  rw [ingredientNames]
  simp only [ne_eq, List.map_eq_nil_iff, List.filter_eq_nil_iff, List.mem_map, beq_iff_eq]
  push_neg
  constructor
  · rintro ⟨p, hp, hfst⟩
    exact ⟨p, hp, hfst⟩
  · rintro ⟨p, hp, hfst⟩
    exact ⟨p, hp, hfst⟩

theorem mem_filter_recipes_iff {db : DB} {inc exc hav : List String} {rid : Nat} :
    rid ∈ filter_recipes db inc exc hav ↔
      ingredientNames db rid ≠ []
      ∧ (stripNonEmpty inc = [] ∨ ∀ n ∈ stripNonEmpty inc, n ∈ ingredientNames db rid)
      ∧ (stripNonEmpty exc = [] ∨ ∀ n ∈ stripNonEmpty exc, n ∉ ingredientNames db rid)
      ∧ (stripNonEmpty hav = [] ∨ ∀ n ∈ ingredientNames db rid, n ∈ stripNonEmpty hav) := by
  rw [filter_recipes]
  simp only [List.mem_filter, mem_recipeIngredientKeys, names_ne_nil_iff, Bool.and_eq_true,
    Bool.or_eq_true, List.isEmpty_iff, List.all_eq_true, List.any_eq_true, Bool.not_eq_true',
    List.any_eq_false, List.contains, List.elem_eq_mem, decide_eq_true_iff]
  tauto

theorem pairwise_boolKey_decomp {α : Type} (key : α → Bool) :
    ∀ {t : List α}, t.Pairwise (fun a b => (!key b || key a) = true) →
      t = t.filter key ++ t.filter (fun a => !key a)
  | [], _ => rfl
  | a :: t, h => by
    rcases List.pairwise_cons.mp h with ⟨ha, ht⟩
    by_cases hk : key a = true
    · rw [List.filter_cons_of_pos (by simpa using hk),
        List.filter_cons_of_neg (by simp [hk]), List.cons_append]
      exact congrArg (a :: ·) (pairwise_boolKey_decomp key ht)
    · have hk' : key a = false := by simpa using hk
      have hall : ∀ b ∈ t, key b = false := by
        intro b hb
        have hb' := ha b hb
        cases hkb : key b
        · rfl
        · rw [hkb, hk'] at hb'
          simp at hb'
      rw [List.filter_cons_of_neg (by simp [hk']), List.filter_cons_of_pos (by simp [hk'])]
      have h1 : t.filter key = [] :=
        List.filter_eq_nil_iff.mpr (fun b hb => by simp [hall b hb])
      have h2 : t.filter (fun x => !key x) = t :=
        List.filter_eq_self.mpr (fun b hb => by simp [hall b hb])
      rw [h1, h2, List.nil_append]

theorem mergeSort_boolKey {α : Type} (key : α → Bool) (l : List α) :
    l.mergeSort (fun a b => !key b || key a) = l.filter key ++ l.filter (fun a => !key a) := by
  have htrans : ∀ a b c : α, (!key b || key a) → (!key c || key b) → (!key c || key a) := by
    intro a b c h1 h2
    cases ha : key a <;> cases hb : key b <;> cases hc : key c <;> simp_all
  have htotal : ∀ a b : α, ((!key b || key a) || (!key a || key b)) = true := by
    intro a b
    cases ha : key a <;> cases hb : key b <;> simp
  have hsorted := List.sorted_mergeSort htrans htotal l
  have hperm := List.mergeSort_perm l (fun a b => !key b || key a)
  have hdec := pairwise_boolKey_decomp key hsorted
  have hsub1 : l.filter key <+ l.mergeSort (fun a b => !key b || key a) := by
    refine List.sublist_mergeSort htrans htotal ?_ (List.filter_sublist l)
    refine List.pairwise_of_forall_mem_list ?_
    intro a ha b hb
    have h1 : key a = true := (List.mem_filter.mp ha).2
    simp [h1]
  have hsub2 : l.filter (fun a => !key a) <+ l.mergeSort (fun a b => !key b || key a) := by
    refine List.sublist_mergeSort htrans htotal ?_ (List.filter_sublist l)
    refine List.pairwise_of_forall_mem_list ?_
    intro a ha b hb
    have h1 : (!key b) = true := (List.mem_filter.mp hb).2
    have h2 : key b = false := by simpa using h1
    simp [h2]
  have e1 : (l.mergeSort (fun a b => !key b || key a)).filter key = l.filter key := by
    have hs : l.filter key <+ (l.mergeSort (fun a b => !key b || key a)).filter key := by
      have hh := hsub1.filter key
      rwa [List.filter_eq_self.mpr (fun b hb => (List.mem_filter.mp hb).2)] at hh
    exact (hs.eq_of_length ((hperm.filter key).length_eq.symm)).symm
  have e2 : (l.mergeSort (fun a b => !key b || key a)).filter (fun a => !key a)
      = l.filter (fun a => !key a) := by
    have hs : l.filter (fun a => !key a)
        <+ (l.mergeSort (fun a b => !key b || key a)).filter (fun a => !key a) := by
      have hh := hsub2.filter (fun a => !key a)
      rwa [List.filter_eq_self.mpr (fun b hb => (List.mem_filter.mp hb).2)] at hh
    exact (hs.eq_of_length ((hperm.filter (fun a => !key a)).length_eq.symm)).symm
  rw [hdec, e1, e2]

theorem exists_link_of_mem_joinPairs {db : DB} {p : Nat × String} (hp : p ∈ joinPairs db) :
    ∃ ri ∈ db.recipe_ingredients, ri.recipe_id = p.1 := by
  simp only [joinPairs, List.mem_flatMap] at hp
  rcases hp with ⟨r, _, ri, hri, hmem⟩
  by_cases h : ri.recipe_id = r.id
  · rw [if_pos h] at hmem
    rcases List.mem_map.mp hmem with ⟨i, _, rfl⟩
    exact ⟨ri, hri, h⟩
  · rw [if_neg h] at hmem
    exact absurd hmem (List.not_mem_nil _)

theorem isEmpty_false_of_strip_ne_nil {l : List String} (h : stripNonEmpty l ≠ []) :
    l.isEmpty = false := by
  cases l
  · exact absurd rfl h
  · rfl

theorem ingredientNames_eq_nil {db : DB} {rid : Nat}
    (hnolinks : ∀ ri ∈ db.recipe_ingredients, ri.recipe_id ≠ rid) :
    ingredientNames db rid = [] := by
  rw [ingredientNames, List.map_eq_nil_iff, List.filter_eq_nil_iff]
  intro p hp hbeq
  rcases exists_link_of_mem_joinPairs hp with ⟨ri, hri, hrid⟩
  have hfst : p.1 = rid := by simpa using hbeq
  exact hnolinks ri hri (hrid.trans hfst)

/-! ## Example catalogs for witnesses and counterexamples -/

/-- A small concrete catalog: recipe 1 uses Banana and Kale, recipe 2
uses Banana and Honey, recipe 3 has no ingredient links at all. -/
def exDB : DB :=
  { recipes := [⟨1, "Berry", "d", []⟩, ⟨2, "Apple", "d", []⟩, ⟨3, "Solo", "d", []⟩]
    ingredients := [⟨10, "Banana"⟩, ⟨11, "Kale"⟩, ⟨12, "Honey"⟩]
    recipe_ingredients :=
      [⟨1, 10, "1", "2", none⟩, ⟨1, 11, "1", "2", none⟩,
       ⟨2, 10, "1", "2", some "cup"⟩, ⟨2, 12, "1", "2", none⟩]
    benefits := [⟨20, "Energy", "d"⟩]
    recipe_benefits := [⟨1, 20, 5⟩] }

/-! ## Claims -/

/-- C1 (counterexample): in the catalog `exDB`, recipe 3 exists but has no
ingredient links; with criteria include = [], exclude = ["Kale"],
have = [] all three per-filter set conditions hold for recipe 3 (its
ingredient set is empty, hence disjoint from the exclude set), yet 3 is
not in the result of `filter_recipes` — so membership is not equivalent to
the three conditions. -/
theorem c1_filter_iff_counterexample :
    (3 : Nat) ∈ exDB.recipes.map (fun r => r.id)
    ∧ stripNonEmpty ["Kale"] ≠ []
    ∧ (stripNonEmpty ([] : List String) = []
        ∨ ∀ n ∈ stripNonEmpty ([] : List String), n ∈ ingredientNames exDB 3)
    ∧ (∀ n ∈ stripNonEmpty ["Kale"], n ∉ ingredientNames exDB 3)
    ∧ (stripNonEmpty ([] : List String) = []
        ∨ ∀ n ∈ ingredientNames exDB 3, n ∈ stripNonEmpty ([] : List String))
    ∧ (3 : Nat) ∉ filter_recipes exDB [] ["Kale"] [] := by
  decide

/-- C1 (amended): for criteria with at least one of the three name lists
non-empty after trimming, a recipe id is in the result of
`filter_recipes` iff the recipe has a non-empty ingredient set (it occurs
in the ingredient join) AND each of the three conditions holds: include
empty or included in the ingredient set; exclude empty or disjoint from
it; have empty or covering it. -/
theorem c1_filter_membership (db : DB) (inc exc hav : List String) (rid : Nat)
    (_hcrit : stripNonEmpty inc ≠ [] ∨ stripNonEmpty exc ≠ [] ∨ stripNonEmpty hav ≠ []) :
    rid ∈ filter_recipes db inc exc hav ↔
      ingredientNames db rid ≠ []
      ∧ (stripNonEmpty inc = [] ∨ ∀ n ∈ stripNonEmpty inc, n ∈ ingredientNames db rid)
      ∧ (stripNonEmpty exc = [] ∨ ∀ n ∈ stripNonEmpty exc, n ∉ ingredientNames db rid)
      ∧ (stripNonEmpty hav = [] ∨ ∀ n ∈ ingredientNames db rid, n ∈ stripNonEmpty hav) :=
  mem_filter_recipes_iff

/-- C1 (witness): the amended characterization applied to `exDB` with
include = ["Banana"], at recipe id 1. -/
theorem c1_filter_membership_witness :
    (stripNonEmpty ["Banana"] ≠ [] ∨ stripNonEmpty ([] : List String) ≠ []
      ∨ stripNonEmpty ([] : List String) ≠ [])
    ∧ ((1 : Nat) ∈ filter_recipes exDB ["Banana"] [] [] ↔
      ingredientNames exDB 1 ≠ []
      ∧ (stripNonEmpty ["Banana"] = [] ∨ ∀ n ∈ stripNonEmpty ["Banana"], n ∈ ingredientNames exDB 1)
      ∧ (stripNonEmpty ([] : List String) = []
          ∨ ∀ n ∈ stripNonEmpty ([] : List String), n ∉ ingredientNames exDB 1)
      ∧ (stripNonEmpty ([] : List String) = []
          ∨ ∀ n ∈ ingredientNames exDB 1, n ∈ stripNonEmpty ([] : List String))) :=
  ⟨by decide, c1_filter_membership exDB ["Banana"] [] [] 1 (by decide)⟩

/-- C6: a recipe with no `recipe_ingredients` rows is excluded from the
filtered result whenever at least one of the criteria lists is non-empty
after trimming — its id never enters the map built from the ingredient
join, even though an empty ingredient set is disjoint from any exclude
set and a subset of any have set. -/
theorem c6_no_links_excluded (db : DB) (inc exc hav : List String) (r : RecipeRow)
    (_hr : r ∈ db.recipes)
    (hnolinks : ∀ ri ∈ db.recipe_ingredients, ri.recipe_id ≠ r.id)
    (hcrit : stripNonEmpty inc ≠ [] ∨ stripNonEmpty exc ≠ [] ∨ stripNonEmpty hav ≠ []) :
    r.id ∉ filter_recipes db inc exc hav ∧ r ∉ indexRecipes db inc exc hav := by
  have hnames : ingredientNames db r.id = [] := ingredientNames_eq_nil hnolinks
  have h1 : r.id ∉ filter_recipes db inc exc hav := by
    intro hmem
    exact (mem_filter_recipes_iff.mp hmem).1 hnames
  have hbranch : (inc.isEmpty && exc.isEmpty && hav.isEmpty) = false := by
    rcases hcrit with h | h | h
    · simp [isEmpty_false_of_strip_ne_nil h]
    · simp [isEmpty_false_of_strip_ne_nil h]
    · simp [isEmpty_false_of_strip_ne_nil h]
  refine ⟨h1, fun hmem => ?_⟩
  rw [indexRecipes] at hmem
  rw [hbranch] at hmem
  simp only [Bool.false_eq_true, if_false, List.mem_filter, List.contains,
    List.elem_eq_mem, decide_eq_true_iff] at hmem
  exact h1 hmem.2

/-- C6 (witness): recipe 3 of `exDB` has no ingredient links and is
excluded under exclude = ["Kale"]. -/
theorem c6_no_links_excluded_witness :
    ((⟨3, "Solo", "d", []⟩ : RecipeRow) ∈ exDB.recipes
      ∧ (∀ ri ∈ exDB.recipe_ingredients, ri.recipe_id ≠ 3)
      ∧ (stripNonEmpty ([] : List String) ≠ [] ∨ stripNonEmpty ["Kale"] ≠ []
          ∨ stripNonEmpty ([] : List String) ≠ []))
    ∧ ((3 : Nat) ∉ filter_recipes exDB [] ["Kale"] []
      ∧ (⟨3, "Solo", "d", []⟩ : RecipeRow) ∉ indexRecipes exDB [] ["Kale"] []) :=
  ⟨⟨by decide, by decide, by decide⟩,
    c6_no_links_excluded exDB [] ["Kale"] [] ⟨3, "Solo", "d", []⟩
      (by decide) (by decide) (by decide)⟩

theorem nameLe_trans : ∀ a b c : RecipeRow, decide (a.name ≤ b.name) = true →
    decide (b.name ≤ c.name) = true → decide (a.name ≤ c.name) = true := by
  intro a b c h1 h2
  simp only [decide_eq_true_eq] at h1 h2 ⊢
  exact le_trans h1 h2

theorem nameLe_total : ∀ a b : RecipeRow,
    (decide (a.name ≤ b.name) || decide (b.name ≤ a.name)) = true := by
  intro a b
  simpa using le_total a.name b.name

theorem fetch_recipes_sorted (db : DB) :
    (fetch_recipes db).Pairwise (fun a b => a.name ≤ b.name) := by
  have h := List.sorted_mergeSort nameLe_trans nameLe_total db.recipes
  exact h.imp (fun hab => by simpa using hab)

theorem fetch_recipes_perm (db : DB) : (fetch_recipes db).Perm db.recipes :=
  List.mergeSort_perm db.recipes _

/-- C10: filtering never reorders — for every criteria the listing is a
sublist (order-preserving subsequence) of the alphabetical recipe list, so
it is always sorted alphabetically by recipe name. -/
theorem c10_filter_preserves_order (db : DB) (inc exc hav : List String) :
    indexRecipes db inc exc hav <+ fetch_recipes db
    ∧ (indexRecipes db inc exc hav).Pairwise (fun a b => a.name ≤ b.name) := by
  have hsub : indexRecipes db inc exc hav <+ fetch_recipes db := by
    rw [indexRecipes]
    by_cases h : (inc.isEmpty && exc.isEmpty && hav.isEmpty) = true
    · rw [if_pos h]
    · rw [if_neg h]
      exact List.filter_sublist _
  exact ⟨hsub, (fetch_recipes_sorted db).sublist hsub⟩

/-- C7: the servings selector is orthogonal to selection and ranking — the
ordered sequence of recipe ids of the listing is the same for servings 1
and servings 2, and the per-recipe ingredient rows agree on everything but
the quantity field. -/
theorem c7_servings_orthogonal (db : DB) (inc exc hav : List String) :
    ((index db 1 inc exc hav).map (fun card => card.recipe.id)
      = (index db 2 inc exc hav).map (fun card => card.recipe.id))
    ∧ ∀ rid, (fetch_recipe_ingredients db rid 1).map (fun v => (v.name, v.unit))
        = (fetch_recipe_ingredients db rid 2).map (fun v => (v.name, v.unit)) := by
  constructor
  · rw [index, index, List.map_map, List.map_map]
    rfl
  · intro rid
    rw [fetch_recipe_ingredients, fetch_recipe_ingredients, List.map_map, List.map_map]
    rfl

/-- C8: requesting the detail page with a recipe id not present in the
catalog never errors — it returns the redirect to the index listing. -/
theorem c8_unknown_id_redirects (db : DB) (rid servings : Nat)
    (h : ∀ r ∈ db.recipes, r.id ≠ rid) :
    recipe_detail db rid servings = DetailResponse.redirectIndex := by
  rw [recipe_detail]
  have hnone : db.recipes.find? (fun r => r.id == rid) = none := by
    rw [List.find?_eq_none]
    intro r hr
    simpa using h r hr
  rw [hnone]

/-- C8 (witness): id 9 is absent from `exDB` and the detail route
redirects. -/
theorem c8_unknown_id_redirects_witness :
    (∀ r ∈ exDB.recipes, r.id ≠ 9)
    ∧ recipe_detail exDB 9 1 = DetailResponse.redirectIndex :=
  ⟨by decide, c8_unknown_id_redirects exDB 9 1 (by decide)⟩

theorem perm_joinPairs {db db' : DB}
    (hrec : db'.recipes = db.recipes) (hing : db'.ingredients = db.ingredients)
    (hlinks : db'.recipe_ingredients.Perm db.recipe_ingredients) :
    (joinPairs db').Perm (joinPairs db) := by
  rw [joinPairs, joinPairs, hrec, hing]
  refine List.Perm.flatMap_left _ ?_
  intro r _
  exact List.Perm.flatMap_right _ hlinks

theorem perm_ingredientNames {db db' : DB} {rid : Nat}
    (hrec : db'.recipes = db.recipes) (hing : db'.ingredients = db.ingredients)
    (hlinks : db'.recipe_ingredients.Perm db.recipe_ingredients) :
    (ingredientNames db' rid).Perm (ingredientNames db rid) :=
  ((perm_joinPairs hrec hing hlinks).filter _).map _

theorem mem_filter_recipes_congr {db db' : DB} {inc exc hav : List String} {rid : Nat}
    (hrec : db'.recipes = db.recipes) (hing : db'.ingredients = db.ingredients)
    (hlinks : db'.recipe_ingredients.Perm db.recipe_ingredients) :
    rid ∈ filter_recipes db' inc exc hav ↔ rid ∈ filter_recipes db inc exc hav := by
  have hperm := @perm_ingredientNames db db' rid hrec hing hlinks
  rw [mem_filter_recipes_iff, mem_filter_recipes_iff]
  have hnil : ingredientNames db' rid = [] ↔ ingredientNames db rid = [] := by
    constructor
    · intro h
      exact (h ▸ hperm).symm.eq_nil
    · intro h
      exact (h ▸ hperm).eq_nil
  have hmem : ∀ n, n ∈ ingredientNames db' rid ↔ n ∈ ingredientNames db rid :=
    fun n => hperm.mem_iff
  constructor
  · rintro ⟨h0, h1, h2, h3⟩
    refine ⟨fun h => h0 (hnil.mpr h), ?_, ?_, ?_⟩
    · rcases h1 with h1 | h1
      · exact Or.inl h1
      · exact Or.inr fun n hn => (hmem n).mp (h1 n hn)
    · rcases h2 with h2 | h2
      · exact Or.inl h2
      · exact Or.inr fun n hn hc => h2 n hn ((hmem n).mpr hc)
    · rcases h3 with h3 | h3
      · exact Or.inl h3
      · exact Or.inr fun n hn => h3 n ((hmem n).mpr hn)
  · rintro ⟨h0, h1, h2, h3⟩
    refine ⟨fun h => h0 (hnil.mp h), ?_, ?_, ?_⟩
    · rcases h1 with h1 | h1
      · exact Or.inl h1
      · exact Or.inr fun n hn => (hmem n).mpr (h1 n hn)
    · rcases h2 with h2 | h2
      · exact Or.inl h2
      · exact Or.inr fun n hn hc => h2 n hn ((hmem n).mp hc)
    · rcases h3 with h3 | h3
      · exact Or.inl h3
      · exact Or.inr fun n hn => h3 n ((hmem n).mp hn)

/-- C9: the selection-and-ranking pipeline of the listing is
deterministic — its output is a function of the catalog snapshot alone.
In particular it does not depend on the physical order in which the
storage layer returns the `recipe_ingredients` rows (the one unordered
query of the pipeline): presenting them in any permuted order yields the
identical ordered recipe list, so two invocations on identical inputs
yield identical ordered output. -/
theorem c9_deterministic (db db' : DB) (inc exc hav : List String)
    (hrec : db'.recipes = db.recipes) (hing : db'.ingredients = db.ingredients)
    (hlinks : db'.recipe_ingredients.Perm db.recipe_ingredients) :
    indexRecipes db' inc exc hav = indexRecipes db inc exc hav := by
  rw [indexRecipes, indexRecipes, fetch_recipes, fetch_recipes, hrec]
  by_cases h : (inc.isEmpty && exc.isEmpty && hav.isEmpty) = true
  · rw [if_pos h, if_pos h]
  · rw [if_neg h, if_neg h]
    refine List.filter_congr ?_
    intro r _
    simp only [List.contains, List.elem_eq_mem]
    exact decide_eq_decide.mpr (mem_filter_recipes_congr hrec hing hlinks)

/-- C9 (witness): swapping the first two `recipe_ingredients` rows of
`exDB` leaves the listing unchanged. -/
theorem c9_deterministic_witness :
    ({ exDB with recipe_ingredients :=
        [⟨1, 11, "1", "2", none⟩, ⟨1, 10, "1", "2", none⟩,
         ⟨2, 10, "1", "2", some "cup"⟩, ⟨2, 12, "1", "2", none⟩] } : DB).recipes = exDB.recipes
    ∧ indexRecipes ({ exDB with recipe_ingredients :=
        [⟨1, 11, "1", "2", none⟩, ⟨1, 10, "1", "2", none⟩,
         ⟨2, 10, "1", "2", some "cup"⟩, ⟨2, 12, "1", "2", none⟩] } : DB) ["Banana"] [] []
      = indexRecipes exDB ["Banana"] [] [] :=
  ⟨rfl, c9_deterministic exDB _ ["Banana"] [] [] rfl rfl
    (List.Perm.swap (⟨1, 10, "1", "2", none⟩ : RecipeIngredientRow)
      (⟨1, 11, "1", "2", none⟩ : RecipeIngredientRow)
      [⟨2, 10, "1", "2", some "cup"⟩, ⟨2, 12, "1", "2", none⟩])⟩

theorem favLe_trans : ∀ a b d : SnapRecipe, (!b.favorite || a.favorite) = true →
    (!d.favorite || b.favorite) = true → (!d.favorite || a.favorite) = true := by
  intro a b d h1 h2
  cases ha : a.favorite <;> cases hb : b.favorite <;> cases hd : d.favorite <;> simp_all

theorem favLe_total : ∀ a b : SnapRecipe,
    ((!b.favorite || a.favorite) || (!a.favorite || b.favorite)) = true := by
  intro a b
  cases a.favorite <;> cases b.favorite <;> simp

/-- Sample engine recipes: `sdR1` is rated Energy 5 and not a favorite,
`sdR2` is unrated and a favorite, `sdR3` is unrated and not a favorite. -/
def sdR1 : SnapRecipe := ⟨1, "R1", false, [], [("Energy", 5)]⟩

/-- See `sdR1`. -/
def sdR2 : SnapRecipe := ⟨2, "R2", true, [], []⟩

/-- See `sdR1`. -/
def sdR3 : SnapRecipe := ⟨3, "R3", false, [], []⟩

/-- Criteria that only prioritize the Energy benefit. -/
def sdCrit : Criteria := ⟨[], [], [], false, ["Energy"]⟩

/-- C2: with `favoritesOnly = true` the engine result is exactly the
favorite recipes of the snapshot — the include/exclude/have criteria are
ignored, whatever their values. -/
theorem c2_favorites_only (snap : List SnapRecipe) (c : Criteria)
    (h : c.favoritesOnly = true) :
    (selectAndRank snap c).Perm (snap.filter (fun r => r.favorite)) := by
  have hw : workingSet snap c = snap.filter (fun r => r.favorite) := by
    simp [workingSet, h]
  have hr : (rankedStage snap c).Perm (workingSet snap c) := by
    simp only [rankedStage]
    by_cases hp : (stripNonEmpty c.prioritizeBenefitNames).isEmpty = true
    · rw [if_pos hp]
    · rw [if_neg hp]
      exact List.mergeSort_perm _ _
  have h1 : (selectAndRank snap c).Perm (rankedStage snap c) := List.mergeSort_perm _ _
  exact (h1.trans hr).trans (hw ▸ List.Perm.refl _)

/-- C2 (witness): on the snapshot `[sdR1, sdR2]` with `favoritesOnly` set
and non-empty include/exclude/have/prioritize criteria, the result is a
permutation of the favorites. -/
theorem c2_favorites_only_witness :
    (Criteria.mk ["Banana"] ["Kale"] ["Honey"] true ["Energy"]).favoritesOnly = true
    ∧ (selectAndRank [sdR1, sdR2] (Criteria.mk ["Banana"] ["Kale"] ["Honey"] true ["Energy"])).Perm
        ([sdR1, sdR2].filter (fun r => r.favorite)) :=
  ⟨rfl, c2_favorites_only [sdR1, sdR2] (Criteria.mk ["Banana"] ["Kale"] ["Honey"] true ["Energy"]) rfl⟩

/-- C4: the engine output is exactly the pre-favorite-sort stage split
into favorites first, then non-favorites, each block keeping its prior
relative order (the priority order, or the alphabetical order when no
priority sort ran); in particular no non-favorite ever precedes a
favorite. -/
theorem c4_favorites_first (snap : List SnapRecipe) (c : Criteria) :
    selectAndRank snap c
      = (rankedStage snap c).filter (fun r => r.favorite)
        ++ (rankedStage snap c).filter (fun r => !r.favorite)
    ∧ (selectAndRank snap c).Pairwise (fun a b => b.favorite = true → a.favorite = true) := by
  constructor
  · exact mergeSort_boolKey (fun r => r.favorite) (rankedStage snap c)
  · have hs := List.sorted_mergeSort favLe_trans favLe_total (rankedStage snap c)
    refine hs.imp ?_
    intro a b hab hb
    rw [hb] at hab
    simpa using hab

/-- C3 (counterexample): prioritizing Energy on the two-recipe snapshot
`[sdR1, sdR2]` (Energy 5 and not favorite vs unrated and favorite), the
final output is `[sdR2, sdR1]` — the favorite unrated recipe first — so
the higher-scored recipe does NOT sort first regardless of favorite
flags: the final favorite sort dominates the score order. -/
theorem c3_priority_counterexample :
    score ["Energy"] sdR1 = 5 ∧ score ["Energy"] sdR2 = 0
    ∧ selectAndRank [sdR1, sdR2] sdCrit = [sdR2, sdR1] := by
  refine ⟨by decide, by decide, ?_⟩
  have hw : workingSet [sdR1, sdR2] sdCrit = [sdR1, sdR2] := by decide
  have h1 : rankedStage [sdR1, sdR2] sdCrit = [sdR1, sdR2] := by
    simp only [rankedStage, hw]
    rw [if_neg (by decide)]
    exact List.mergeSort_of_sorted (by decide)
  have h2 := mergeSort_boolKey (fun r : SnapRecipe => r.favorite)
    (rankedStage [sdR1, sdR2] sdCrit)
  rw [h1] at h2
  show (rankedStage [sdR1, sdR2] sdCrit).mergeSort (fun a b => !b.favorite || a.favorite)
    = [sdR2, sdR1]
  rw [h1, h2]
  decide

/-- C3 (amended): with a non-empty prioritize list, the priority stage is
a stable descending sort of the filtered working set by total benefit
score (permutation, sorted, ties keep the working-set order), and in the
final output the descending-score order holds among recipes of equal
favorite flag — the favorite sort, applied last, dominates it. -/
theorem c3_priority_ranking (snap : List SnapRecipe) (c : Criteria)
    (hpri : stripNonEmpty c.prioritizeBenefitNames ≠ []) :
    (rankedStage snap c).Perm (workingSet snap c)
    ∧ (rankedStage snap c).Pairwise (fun a b =>
        score (stripNonEmpty c.prioritizeBenefitNames) b
          ≤ score (stripNonEmpty c.prioritizeBenefitNames) a)
    ∧ (∀ a b : SnapRecipe, [a, b] <+ workingSet snap c →
        score (stripNonEmpty c.prioritizeBenefitNames) a
          = score (stripNonEmpty c.prioritizeBenefitNames) b →
        [a, b] <+ rankedStage snap c)
    ∧ (selectAndRank snap c).Pairwise (fun a b => a.favorite = b.favorite →
        score (stripNonEmpty c.prioritizeBenefitNames) b
          ≤ score (stripNonEmpty c.prioritizeBenefitNames) a) := by
  have hne : (stripNonEmpty c.prioritizeBenefitNames).isEmpty = false := by
    cases hh : stripNonEmpty c.prioritizeBenefitNames
    · exact absurd hh hpri
    · rfl
  have hrank : rankedStage snap c = (workingSet snap c).mergeSort
      (fun a b => decide (score (stripNonEmpty c.prioritizeBenefitNames) b
        ≤ score (stripNonEmpty c.prioritizeBenefitNames) a)) := by
    simp [rankedStage, hne]
  have htrans : ∀ a b d : SnapRecipe,
      decide (score (stripNonEmpty c.prioritizeBenefitNames) b
        ≤ score (stripNonEmpty c.prioritizeBenefitNames) a) = true →
      decide (score (stripNonEmpty c.prioritizeBenefitNames) d
        ≤ score (stripNonEmpty c.prioritizeBenefitNames) b) = true →
      decide (score (stripNonEmpty c.prioritizeBenefitNames) d
        ≤ score (stripNonEmpty c.prioritizeBenefitNames) a) = true := by
    intro a b d h1 h2
    simp only [decide_eq_true_eq] at h1 h2 ⊢
    exact le_trans h2 h1
  have htotal : ∀ a b : SnapRecipe,
      (decide (score (stripNonEmpty c.prioritizeBenefitNames) b
        ≤ score (stripNonEmpty c.prioritizeBenefitNames) a)
      || decide (score (stripNonEmpty c.prioritizeBenefitNames) a
        ≤ score (stripNonEmpty c.prioritizeBenefitNames) b)) = true := by
    intro a b
    simpa using le_total (score (stripNonEmpty c.prioritizeBenefitNames) b)
      (score (stripNonEmpty c.prioritizeBenefitNames) a)
  have hsorted : (rankedStage snap c).Pairwise (fun a b =>
      score (stripNonEmpty c.prioritizeBenefitNames) b
        ≤ score (stripNonEmpty c.prioritizeBenefitNames) a) := by
    rw [hrank]
    exact (List.sorted_mergeSort htrans htotal (workingSet snap c)).imp
      (fun hab => by simpa using hab)
  refine ⟨?_, hsorted, ?_, ?_⟩
  · rw [hrank]
    exact List.mergeSort_perm _ _
  · intro a b hsub heq
    rw [hrank]
    refine List.pair_sublist_mergeSort htrans htotal ?_ hsub
    simp [heq]
  · have hdecomp : selectAndRank snap c
        = (rankedStage snap c).filter (fun r => r.favorite)
          ++ (rankedStage snap c).filter (fun r => !r.favorite) :=
      mergeSort_boolKey (fun r : SnapRecipe => r.favorite) (rankedStage snap c)
    rw [hdecomp]
    refine List.pairwise_append.mpr ⟨?_, ?_, ?_⟩
    · refine List.Pairwise.imp ?_ (List.Pairwise.sublist ?_ hsorted)
      · intro a b hab _
        exact hab
      · exact List.filter_sublist _
    · refine List.Pairwise.imp ?_ (List.Pairwise.sublist ?_ hsorted)
      · intro a b hab _
        exact hab
      · exact List.filter_sublist _
    · intro x hx y hy hfav
      have hx' : x.favorite = true := (List.mem_filter.mp hx).2
      have hy' : y.favorite = false := by
        have hyb := (List.mem_filter.mp hy).2
        simpa using hyb
      rw [hx', hy'] at hfav
      exact absurd hfav (by simp)

/-- C3 (witness): the amended statement applied to the snapshot
`[sdR1, sdR3]` (Energy 5 vs unrated, both non-favorite) with the
Energy-prioritizing criteria. -/
theorem c3_priority_ranking_witness :
    stripNonEmpty sdCrit.prioritizeBenefitNames ≠ []
    ∧ ((rankedStage [sdR1, sdR3] sdCrit).Perm (workingSet [sdR1, sdR3] sdCrit)
      ∧ (rankedStage [sdR1, sdR3] sdCrit).Pairwise (fun a b =>
          score (stripNonEmpty sdCrit.prioritizeBenefitNames) b
            ≤ score (stripNonEmpty sdCrit.prioritizeBenefitNames) a)
      ∧ (∀ a b : SnapRecipe, [a, b] <+ workingSet [sdR1, sdR3] sdCrit →
          score (stripNonEmpty sdCrit.prioritizeBenefitNames) a
            = score (stripNonEmpty sdCrit.prioritizeBenefitNames) b →
          [a, b] <+ rankedStage [sdR1, sdR3] sdCrit)
      ∧ (selectAndRank [sdR1, sdR3] sdCrit).Pairwise (fun a b =>
          a.favorite = b.favorite →
          score (stripNonEmpty sdCrit.prioritizeBenefitNames) b
            ≤ score (stripNonEmpty sdCrit.prioritizeBenefitNames) a)) :=
  ⟨by decide, c3_priority_ranking [sdR1, sdR3] sdCrit (by decide)⟩

/-- C5: with every criterion empty the listing of src/app.py is the full
catalog sorted alphabetically by name, and the spec's engine then applies
only the final favorite sort to it (favorites first, alphabetical order
preserved inside each block). -/
theorem c5_empty_criteria (db : DB) (inc exc hav : List String)
    (snap : List SnapRecipe) (c : Criteria)
    (hinc : inc = []) (hexc : exc = []) (hhav : hav = [])
    (hc1 : c.includeNames = []) (hc2 : c.excludeNames = []) (hc3 : c.haveNames = [])
    (hc4 : c.favoritesOnly = false) (hc5 : c.prioritizeBenefitNames = []) :
    (indexRecipes db inc exc hav).Perm db.recipes
    ∧ (indexRecipes db inc exc hav).Pairwise (fun a b => a.name ≤ b.name)
    ∧ selectAndRank snap c
        = snap.filter (fun r => r.favorite) ++ snap.filter (fun r => !r.favorite) := by
  subst hinc hexc hhav
  have hidx : indexRecipes db [] [] [] = fetch_recipes db := by
    simp [indexRecipes]
  refine ⟨?_, ?_, ?_⟩
  · rw [hidx]
    exact fetch_recipes_perm db
  · rw [hidx]
    exact fetch_recipes_sorted db
  · have hw : workingSet snap c = snap := by
      simp [workingSet, hc1, hc2, hc3, hc4, stripNonEmpty]
    have hr : rankedStage snap c = snap := by
      simp [rankedStage, hc5, hw, stripNonEmpty]
    have hb := mergeSort_boolKey (fun r : SnapRecipe => r.favorite) (rankedStage snap c)
    rw [hr] at hb
    show (rankedStage snap c).mergeSort (fun a b => !b.favorite || a.favorite)
      = snap.filter (fun r => r.favorite) ++ snap.filter (fun r => !r.favorite)
    rw [hr, hb]

/-- C5 (witness): the empty-criteria theorem applied to `exDB` and to the
snapshot `[sdR1, sdR2]`. -/
theorem c5_empty_criteria_witness :
    ((Criteria.mk [] [] [] false []).favoritesOnly = false
      ∧ (Criteria.mk [] [] [] false []).includeNames = [])
    ∧ ((indexRecipes exDB [] [] []).Perm exDB.recipes
      ∧ (indexRecipes exDB [] [] []).Pairwise (fun a b => a.name ≤ b.name)
      ∧ selectAndRank [sdR1, sdR2] (Criteria.mk [] [] [] false [])
          = [sdR1, sdR2].filter (fun r => r.favorite)
            ++ [sdR1, sdR2].filter (fun r => !r.favorite)) :=
  ⟨⟨rfl, rfl⟩,
    c5_empty_criteria exDB [] [] [] [sdR1, sdR2] (Criteria.mk [] [] [] false [])
      rfl rfl rfl rfl rfl rfl rfl rfl⟩

end Blendora
